import Mathlib

/-
Verification development for the sleep_kit repository.

The definitions below are a shallow embedding of the Python sources
(src/sleep_kit/annotation.py, epoch.py, utils.py).  Text files are
modelled as lists of lines (each line without its trailing newline, so
Python's readlines-plus-strip idiom corresponds to String.trim here);
readers that can raise a Python exception (uncaught int()/float()
conversion errors) return Except, pure readers return plain lists.
Python dicts with string keys are modelled as insertion-ordered
association lists with the dict operations (lookup, insert-or-update,
del, setdefault) spelled out below.
-/

namespace SleepKit

/-- Decide whether the pattern occurs as a contiguous substring,
modelling Python's `pat in s` on strings (over the char lists). -/
def listContainsSub (pat : List Char) : List Char → Bool
  | [] => pat.isEmpty
  | c :: t => pat.isPrefixOf (c :: t) || listContainsSub pat t

/-- Python's substring test `pat in s` for strings. -/
def containsSubstr (pat s : String) : Bool :=
  listContainsSub pat.toList s.toList

/-- Count non-overlapping occurrences of a (nonempty) pattern,
modelling Python's `s.count(pat)` as used in utils.py.  The first
argument is recursion fuel: every step consumes at least one character,
so fuel equal to the text length (as `countSubstr` supplies) is never
exhausted and the zero-fuel fallback is unreachable. -/
def countSubAux (pat : List Char) : Nat → List Char → Nat
  | _, [] => 0
  | Nat.succ fuel, c :: t =>
    if pat.isPrefixOf (c :: t) then
      1 + countSubAux pat fuel ((c :: t).drop (max 1 pat.length))
    else
      countSubAux pat fuel t
  | 0, _ => 0

/-- Python `s.count(pat)` for strings (nonempty pattern). -/
def countSubstr (pat s : String) : Nat :=
  countSubAux pat.toList s.toList.length s.toList

/-- Python `s.strip()` on the character list: drop leading and trailing
whitespace. -/
def pyCharsStrip (l : List Char) : List Char :=
  ((l.dropWhile Char.isWhitespace).reverse.dropWhile Char.isWhitespace).reverse

/-- Python `s.strip()`. -/
def pyStrip (s : String) : String :=
  String.mk (pyCharsStrip s.toList)

/-- Splitting scan for `pySplit`: tokens are separated by each
non-overlapping occurrence of the (nonempty) separator, scanned left to
right; `cur` holds the current token reversed.  The Nat argument is
recursion fuel: every step consumes at least one character, so fuel
equal to the text length (as `pySplit` supplies) is never exhausted and
the zero-fuel fallback is unreachable. -/
def pySplitAux (sep : List Char) : Nat → List Char → List Char →
    List (List Char)
  | _, cur, [] => [cur.reverse]
  | Nat.succ fuel, cur, c :: t =>
    if sep.isPrefixOf (c :: t) then
      cur.reverse :: pySplitAux sep fuel [] ((c :: t).drop (max 1 sep.length))
    else
      pySplitAux sep fuel (c :: cur) t
  | 0, cur, s => [cur.reverse ++ s]

/-- Python `s.split(sep)` for a nonempty separator string. -/
def pySplit (s sep : String) : List String :=
  (pySplitAux sep.toList s.toList.length [] s.toList).map String.mk

/-- Python `s.lower()` (ASCII, as in the channel and stage names). -/
def pyLower (s : String) : String :=
  String.mk (s.toList.map Char.toLower)

/-- Python `s.upper()` (ASCII, as in the channel names). -/
def pyUpper (s : String) : String :=
  String.mk (s.toList.map Char.toUpper)

/-- Leading sign of a Python numeric literal: the sign factor and the
remaining characters. -/
def pySign : List Char → Int × List Char
  | '-' :: r => (-1, r)
  | '+' :: r => (1, r)
  | l => (1, l)

/-- Digits-to-number accumulator used by the numeric-literal parsers. -/
def natOfDigits (s : List Char) : Nat :=
  s.foldl (fun a c => 10 * a + (c.toNat - 48)) 0

/-- Python `int(s)` on a decimal string literal: optional surrounding
whitespace, optional sign, then at least one digit; anything else
raises, modelled as `none`. -/
def parsePyInt (s : String) : Option Int :=
  let (sg, ds) := pySign (pyCharsStrip s.toList)
  if !ds.isEmpty && ds.all Char.isDigit then
    some (sg * (natOfDigits ds : Int))
  else
    none

/-- Python `float(s)` on a plain decimal literal (optional sign, digits
with an optional fractional part).  The value is kept exactly as an
unreduced fraction numerator × positive power-of-ten denominator, so
sign tests and floor division below are exact rational arithmetic.
Exponent/inf/nan forms do not occur in the annotation files and are
modelled as parse failures. -/
def parsePyFloat (s : String) : Option (Int × Nat) :=
  let (sg, ds) := pySign (pyCharsStrip s.toList)
  match pySplitAux ['.'] ds.length [] ds with
  | [ip] =>
    if !ip.isEmpty && ip.all Char.isDigit then
      some (sg * (natOfDigits ip : Int), 1)
    else
      none
  | [ip, fp] =>
    if (!ip.isEmpty || !fp.isEmpty) && ip.all Char.isDigit
        && fp.all Char.isDigit then
      some (sg * ((natOfDigits ip * 10 ^ fp.length + natOfDigits fp : Nat) : Int),
        10 ^ fp.length)
    else
      none
  | _ => none

/-- Lookup in a string-keyed integer table (Python `d.get` / `in`). -/
def assocGet (t : List (String × Int)) (k : String) : Option Int :=
  (t.find? (fun p => p.1 == k)).map (fun p => p.2)

-- ---------------------------------------------------------------------
-- annotation.py: stage dictionaries
-- ---------------------------------------------------------------------

/-- Profusion / MASS / general-purpose mapping (annotation.py `dic`). -/
def dic : List (String × Int) :=
  [("?", 5), ("W", 0), ("1", 1), ("2", 2), ("3", 3), ("4", 3), ("R", 4)]

/-- Python `dic.get(k, 5)`. -/
def dicGetD (k : String) : Int :=
  (assocGet dic k).getD 5

-- ---------------------------------------------------------------------
-- annotation.py: mass_txt
-- ---------------------------------------------------------------------

/-- One iteration of the mass_txt record loop: state is the label list
accumulated so far together with the running `startTime` as a fraction
(initially -1); a kept record appends its mapped stage and, while
`startTime < 0` (a negative numerator), converts the onset field with
`float(...)`, whose failure raises. -/
def massTxtStep (st : List Int × (Int × Nat)) (line : String) :
    Except String (List Int × (Int × Nat)) :=
  let l := pyStrip line
  if l = "" then .ok st
  else
    let parts := pySplit l ","
    if parts.length < 3 then .ok st
    else
      let onset := parts.getD 0 ""
      let ann := parts.getD 2 ""
      if !containsSubstr "stage" ann then .ok st
      else
        let stageChar := (pySplit ann " ").getLastD ""
        let anno := st.1 ++ [dicGetD stageChar]
        if st.2.1 < 0 then
          match parsePyFloat onset with
          | some v => .ok (anno, v)
          | none => .error "could not convert string to float"
        else
          .ok (anno, st.2)

/-- MASS-format annotation reader (annotation.py `mass_txt`): requires
the exact `Onset,Duration,Annotation` header, keeps records whose third
field contains `stage`, and maps the final space-separated token of
that field through `dic` with default 5. -/
def mass_txt (lines : List String) : Except String (List Int) :=
  match lines with
  | [] => .ok []
  | h :: t =>
    if pyStrip h ≠ "Onset,Duration,Annotation" then .ok []
    else (t.foldlM massTxtStep ([], ((-1 : Int), 1))).map (fun p => p.1)

-- ---------------------------------------------------------------------
-- annotation.py: saf
-- ---------------------------------------------------------------------

/-- The saf scanning loop: repeatedly locate `Sleep stage` in the
remaining text, jump 12 characters past its start (the 11-character
marker plus the following space), record the next character if any, and
continue from there.  This is the `string.find` / `string[i+12:]` loop
of annotation.py written as a left-to-right scan (the first prefix
match below is exactly the `find` index).  The Nat argument is
recursion fuel: every step consumes at least one character, so fuel
equal to the text length (as `saf` supplies) is never exhausted and the
zero-fuel fallback is unreachable. -/
def safScan : Nat → List Char → List Char
  | _, [] => []
  | Nat.succ fuel, c :: t =>
    if ("Sleep stage".toList).isPrefixOf (c :: t) then
      ((c :: t).drop 12).take 1 ++ safScan fuel ((c :: t).drop 12)
    else
      safScan fuel t
  | 0, _ => []

/-- SAF-format annotation reader (annotation.py `saf`): scans the first
line for `Sleep stage` markers and maps each recorded character through
`dic` with default 5. -/
def saf (lines : List String) : List Int :=
  match lines with
  | [] => []
  | s :: _ =>
    (safScan s.toList.length s.toList).map (fun c => dicGetD c.toString)

-- ---------------------------------------------------------------------
-- annotation.py: eannot
-- ---------------------------------------------------------------------

/-- EANNOT stage table (annotation.py `eannot`, local `stage_dict`). -/
def eannotDict : List (String × Int) :=
  [("wake", 0), ("N1", 1), ("Nwake", 1), ("N2", 2), ("N3", 3), ("N4", 3),
   ("REM", 4), ("unscored", 5), ("9", 5), (" ", 5), ("8", 2), ("NN1", 1),
   ("NN2", 2), ("NN3", 3), ("NaN", 5)]

/-- EANNOT reader (annotation.py `eannot`): a line contributes exactly
when it is nonempty and a key of the table (the Python code strips only
the newline, which the line model already removed). -/
def eannot (lines : List String) : List Int :=
  lines.foldl
    (fun acc line =>
      if line.length > 0 then
        match assocGet eannotDict line with
        | some v => acc ++ [v]
        | none => acc
      else acc)
    []

-- ---------------------------------------------------------------------
-- annotation.py: stages_csv
-- ---------------------------------------------------------------------

/-- Stage table of `stages_csv` (keys keep their leading space, as in
the source). -/
def stagesCsvDict : List (String × Int) :=
  [(" Wake", 0), (" Stage1", 1), (" Stage2", 2), (" Stage3", 3),
   (" REM", 4), (" STAGE4", 3), (" UnknownStage", 5)]

/-- Contribution of one `stages_csv` record: a mapped stage with
duration d contributes `int(d // 30)` copies when d > 0 — the floor of
d/30, computed exactly as `Int.fdiv num (30 * den)` on the parsed
fraction — and one copy otherwise; a non-numeric duration on a mapped
record raises. -/
def stagesCsvRecord (line : String) : Except String (List Int) :=
  let raw := pySplit (pyStrip line) ","
  if raw.length < 3 then .ok []
  else
    match assocGet stagesCsvDict (raw.getD 2 "") with
    | none => .ok []
    | some code =>
      match parsePyFloat (raw.getD 1 "") with
      | none => .error "could not convert string to float"
      | some d =>
        let count : Int := if 0 < d.1 then Int.fdiv d.1 (30 * d.2) else 1
        .ok (List.replicate count.toNat code)

/-- CSV stage reader (annotation.py `stages_csv`). -/
def stages_csv (lines : List String) : Except String (List Int) :=
  lines.foldlM (fun acc l => (stagesCsvRecord l).map (fun r => acc ++ r)) []

-- ---------------------------------------------------------------------
-- annotation.py: dcsm_ids
-- ---------------------------------------------------------------------

/-- DCSM stage table (annotation.py `dcsm_ids`, local `stage_dict`). -/
def dcsmDict : List (String × Int) :=
  [("W", 0), ("N1", 1), ("N2", 2), ("N3", 3), ("REM", 4)]

/-- Contribution of one `dcsm_ids` record: the duration field is
converted with `int(...)` first (raising on a non-integer), then a
mapped stage contributes `duration // 30` copies (Python floor
division; a negative count multiplies the list to empty, which toNat
reproduces). -/
def dcsmRecord (line : String) : Except String (List Int) :=
  let l := pyStrip line
  if l = "" then .ok []
  else
    let parts := pySplit l ","
    if parts.length < 3 then .ok []
    else
      match parsePyInt (parts.getD 1 "") with
      | none => .error "invalid literal for int"
      | some d =>
        match assocGet dcsmDict (parts.getD 2 "") with
        | some code => .ok (List.replicate (Int.fdiv d 30).toNat code)
        | none => .ok []

/-- DCSM ids reader (annotation.py `dcsm_ids`). -/
def dcsm_ids (lines : List String) : Except String (List Int) :=
  lines.foldlM (fun acc l => (dcsmRecord l).map (fun r => acc ++ r)) []

-- ---------------------------------------------------------------------
-- annotation.py: tsv
-- ---------------------------------------------------------------------

/-- TSV stage table (annotation.py `tsv`, local `stage_dict`). -/
def tsvDict : List (String × Int) :=
  [("sleep stage w", 0), ("sleep stage wake", 0),
   ("sleep stage n1", 1), ("sleep stage 1", 1),
   ("sleep stage n2", 2), ("sleep stage 2", 2),
   ("sleep stage n3", 3), ("sleep stage 3", 3), ("sleep stage 4", 3),
   ("sleep stage r", 4), ("sleep stage rem", 4),
   ("sleep stage ?", 5)]

/-- TSV reader (annotation.py `tsv`): skips the first line, then keeps
tab-separated records whose lowercased third field is in the table. -/
def tsv (lines : List String) : List Int :=
  lines.tail.foldl
    (fun acc line =>
      let l := pyStrip line
      if l = "" then acc
      else
        let parts := pySplit l "\t"
        if parts.length < 3 then acc
        else
          match assocGet tsvDict (pyLower (pyStrip (parts.getD 2 ""))) with
          | some v => acc ++ [v]
          | none => acc)
    []

-- ---------------------------------------------------------------------
-- annotation.py: hmc_txt
-- ---------------------------------------------------------------------

/-- HMC stage table (annotation.py `hmc_txt`, local `stage_dict`). -/
def hmcDict : List (String × Int) :=
  [("sleep stage w", 0), ("sleep stage n1", 1), ("sleep stage n2", 2),
   ("sleep stage n3", 3), ("sleep stage r", 4)]

/-- The hmc_txt record loop: a record with fewer than five
comma-space-separated fields is skipped; a `lights on` annotation stops
the whole loop; a `lights off` annotation is skipped; otherwise a
mapped annotation contributes its stage. -/
def hmcLoop : List String → List Int
  | [] => []
  | line :: rest =>
    let parts := pySplit (pyStrip line) ", "
    if parts.length < 5 then hmcLoop rest
    else
      let ann := pyLower (parts.getD 4 "")
      if containsSubstr "lights on" ann then []
      else if containsSubstr "lights off" ann then hmcLoop rest
      else
        match assocGet hmcDict ann with
        | some v => v :: hmcLoop rest
        | none => hmcLoop rest

/-- HMC reader (annotation.py `hmc_txt`): skips the header line and
runs the record loop. -/
def hmc_txt (lines : List String) : List Int :=
  hmcLoop lines.tail

-- ---------------------------------------------------------------------
-- annotation.py: wsc_txt
-- ---------------------------------------------------------------------

/-- WSC stage table (annotation.py `wsc_txt`, local `stage_dict`). -/
def wscDict : List (String × Int) :=
  [("0", 0), ("1", 1), ("2", 2), ("3", 3), ("4", 3), ("5", 4),
   ("7", 5), ("6", 5)]

/-- WSC reader (annotation.py `wsc_txt`): skips the first line, then
keeps tab-separated records whose second field is in the table. -/
def wsc_txt (lines : List String) : List Int :=
  lines.tail.foldl
    (fun acc line =>
      let parts := pySplit (pyStrip line) "\t"
      if parts.length < 2 then acc
      else
        match assocGet wscDict (parts.getD 1 "") with
        | some v => acc ++ [v]
        | none => acc)
    []

-- ---------------------------------------------------------------------
-- annotation.py: unified entry point (line-based readers)
-- ---------------------------------------------------------------------

/-- Unified annotation entry point (annotation.py `load_annotation`)
restricted to the readers that consume text lines; the xml, h5 and
phy_mat readers consume XML/HDF5 content that has no line
representation and are outside this embedding.  Pure readers are
wrapped in `.ok`; an unsupported identifier yields the empty list as in
the source. -/
def load_anno (readerType : String) (lines : List String) :
    Except String (List Int) :=
  if readerType = "mass_txt" then mass_txt lines
  else if readerType = "saf" then .ok (saf lines)
  else if readerType = "eannot" then .ok (eannot lines)
  else if readerType = "stages_csv" then stages_csv lines
  else if readerType = "dcsm_ids" then dcsm_ids lines
  else if readerType = "tsv" then .ok (tsv lines)
  else if readerType = "hmc_txt" then .ok (hmc_txt lines)
  else if readerType = "wsc_txt" then .ok (wsc_txt lines)
  else .ok []

-- ---------------------------------------------------------------------
-- epoch.py: slice_epochs
-- ---------------------------------------------------------------------

/-- Epoch slicer (epoch.py `slice_epochs`).  The signal is a channels ×
samples matrix; its numpy shape (C, L) is the outer length and the
length of the first row.  The code truncates each channel to whole
epochs, lowers the epoch count to the label count when labels are
shorter (truncating the signal again) or truncates the labels when they
are longer, returns the absent pair — modelled as `none` — when the
final epoch count is zero, and otherwise reshapes to epochs × channels
× samples-per-epoch (epoch i, channel c holds samples
[i*spe, (i+1)*spe) of channel c, exactly numpy's
reshape-then-transpose). -/
def slice_epochs (signal : List (List Int)) (labels : List Int)
    (fs : Nat := 100) (epoch_sec : Nat := 30) :
    Option (List (List (List Int)) × List Int) :=
  let L := (signal.headD []).length
  let spe := fs * epoch_sec
  let n0 := L / spe
  let signal0 := signal.map (fun row => row.take (n0 * spe))
  let n := if labels.length < n0 then labels.length else n0
  let signal1 :=
    if labels.length < n0 then signal0.map (fun row => row.take (n * spe))
    else signal0
  let labels1 := if labels.length > n0 then labels.take n0 else labels
  if n = 0 then none
  else
    some ((List.range n).map
      (fun i => signal1.map (fun row => (row.drop (i * spe)).take spe)),
      labels1)

-- ---------------------------------------------------------------------
-- epoch.py: standardize_epochs
-- ---------------------------------------------------------------------

/-- Transpose of a rectangular 2-d matrix (numpy `.transpose` on the
two trailing axes; entries are read with a default that is never hit on
rectangular data). -/
def transpose2d (m : List (List Int)) : List (List Int) :=
  (List.range ((m.headD []).length)).map
    (fun j => m.map (fun row => row.getD j 0))

/-- Per-subject standardization (epoch.py `standardize_epochs`).  The
StandardScaler's `fit_transform` is floating-point library code and is
taken as a parameter `scale` acting on the (N*T, C) design matrix; the
control flow around it — the `None` passthrough, the N = 0 passthrough
and the reshape/transpose bookkeeping — is the module's own code and is
modelled exactly. -/
def standardize_epochs (scale : List (List Int) → List (List Int))
    (epochs_data : Option (List (List (List Int)))) :
    Option (List (List (List Int))) :=
  match epochs_data with
  | none => none
  | some e =>
    if e.length = 0 then some e
    else
      let T := ((e.headD []).headD []).length
      let reshaped := (e.map transpose2d).flatten
      let scaled := scale reshaped
      some (((List.range e.length).map
        (fun i => (scaled.drop (i * T)).take T)).map transpose2d)

-- ---------------------------------------------------------------------
-- epoch.py: package_sequences
-- ---------------------------------------------------------------------

/-- Sequence packager (epoch.py `package_sequences`): a `None` epochs
input, or a sequence count of zero, yields the absent pair — modelled
as `none`; otherwise epochs and labels are truncated to
`n_seq * seq_len` entries and reshaped into `n_seq` chunks of
`seq_len` (chunk i holds entries [i*seq_len, (i+1)*seq_len)). -/
def package_sequences {α β : Type} (epochs : Option (List α))
    (labels : List β) (seq_len : Nat := 20) :
    Option (List (List α) × List (List β)) :=
  match epochs with
  | none => none
  | some es =>
    let n_seq := es.length / seq_len
    if n_seq = 0 then none
    else
      let es1 := es.take (n_seq * seq_len)
      let lb1 := labels.take (n_seq * seq_len)
      some ((List.range n_seq).map
        (fun i => (es1.drop (i * seq_len)).take seq_len),
        (List.range n_seq).map
        (fun i => (lb1.drop (i * seq_len)).take seq_len))

-- ---------------------------------------------------------------------
-- utils.py: dict model
-- ---------------------------------------------------------------------

/-- Insertion-ordered string dictionary (Python dict with str keys). -/
abbrev Dict := List (String × String)

/-- Python `m[k]` / `m.get(k)` as an Option. -/
def dlookup (m : Dict) (k : String) : Option String :=
  (m.find? (fun p => p.1 == k)).map (fun p => p.2)

/-- Python `k in m`. -/
def dcontains (m : Dict) (k : String) : Bool :=
  m.any (fun p => p.1 == k)

/-- Python `m[k] = v`: update the existing entry in place, else append. -/
def dinsert : Dict → String → String → Dict
  | [], k, v => [(k, v)]
  | p :: t, k, v => if p.1 == k then (k, v) :: t else p :: dinsert t k v

/-- Python `del m[k]` (keys are unique in every dict built here, so
filtering all matches agrees with deleting the single entry). -/
def derase (m : Dict) (k : String) : Dict :=
  m.filter (fun p => !(p.1 == k))

/-- Python `m.setdefault(k, v)`. -/
def dsetdefault (m : Dict) (k v : String) : Dict :=
  if dcontains m k then m else m ++ [(k, v)]

-- ---------------------------------------------------------------------
-- utils.py: find_str_in_list and automatic channel inference
-- ---------------------------------------------------------------------

/-- Substring channel search (utils.py `find_str_in_list`): the index
of the first channel containing the expected substring, skipping
channels that contain `SPO2`. -/
def find_str_in_list (expect : String) (ch_list : List String) :
    Option Nat :=
  ch_list.findIdx?
    (fun ch => containsSubstr expect ch && !containsSubstr "SPO2" ch)

/-- Default-reference inference (utils.py `get_auto_chn_names`, the
`for suffix in ['A1','A2','M1','M2']` loop): every matching generic
reference token setdefaults key `M2`, so the first match in scan order
is the one recorded. -/
def inferRef (rawChns raw_norm : List String) (m : Dict) : Dict :=
  ["A1", "A2", "M1", "M2"].foldl
    (fun acc sfx =>
      match find_str_in_list sfx raw_norm with
      | some i => dsetdefault acc "M2" (rawChns.getD i "")
      | none => acc)
    m

/-- One step of the EEG loop of `get_auto_chn_names` (state: the map so
far and the `indRef` flag). -/
def autoEegStep (rawChns raw_norm : List String) (st : Dict × Bool)
    (ee : String) : Dict × Bool :=
  let refCand : String × String :=
    if ee.toList.getLastD ' ' == '3' || ee.toList.getLastD ' ' == '1' then ("M2", "A2")
    else ("M1", "A1")
  match find_str_in_list (ee ++ refCand.1) raw_norm with
  | some i => (dinsert st.1 ee (rawChns.getD i ""), false)
  | none =>
    match find_str_in_list (ee ++ refCand.2) raw_norm with
    | some i => (dinsert st.1 ee (rawChns.getD i ""), false)
    | none =>
      match find_str_in_list ee raw_norm with
      | some i =>
        let m1 := dinsert st.1 ee (rawChns.getD i "")
        (if st.2 then inferRef rawChns raw_norm m1 else m1, st.2)
      | none => st

/-- One step of the EOG loop of `get_auto_chn_names`. -/
def autoEogStep (rawChns raw_norm : List String) (m : Dict)
    (ee : String) : Dict :=
  match find_str_in_list (ee ++ "M") raw_norm with
  | some i => dinsert m ee (rawChns.getD i "")
  | none =>
    match find_str_in_list (ee ++ "A") raw_norm with
    | some i => dinsert m ee (rawChns.getD i "")
    | none =>
      let defaults : List String :=
        if ee = "E1" then ["E1", "LOC", "EOG1", "EOGL", "LEOG"]
        else if ee = "E2" then ["E2", "ROC", "EOG2", "EOGR", "REOG"]
        else []
      match defaults.findSome? (fun name => find_str_in_list name raw_norm) with
      | some i => dinsert m ee (rawChns.getD i "")
      | none => m

/-- Automatic channel inference (utils.py `get_auto_chn_names`): drop
LEG channels, normalize names to alphanumeric uppercase, run the EEG
loop (combined position+reference match first, then bare position match
with opportunistic default-reference inference while no reference has
been established), the EOG loop, and the EMG/EMG-reference
detection. -/
def get_auto_chn_names (rawChns0 : List String) : Dict :=
  let rawChns := rawChns0.filter (fun s => !containsSubstr "LEG" s)
  let raw_norm := rawChns.map
    (fun s => String.mk ((s.toList.filter Char.isAlphanum).map Char.toUpper))
  let st := ["F3", "F4", "C3", "C4", "O1", "O2"].foldl
    (autoEegStep rawChns raw_norm) ([], true)
  let m2 := ["E1", "E2"].foldl (autoEogStep rawChns raw_norm) st.1
  let emgIdx :=
    ["CHIN1", "LCHIN", "CHINL", "CCHIN", "CHINC", "CHIN", "EMG"].findSome?
      (fun e => find_str_in_list e raw_norm)
  match emgIdx with
  | none => m2
  | some i =>
    let m3 := dinsert m2 "EMG" (rawChns.getD i "")
    if countSubstr "CHIN" (raw_norm.getD i "") < 2
        && countSubstr "EMG" (raw_norm.getD i "") < 2 then
      match ["CHIN2", "CHIN3", "RCHIN", "CHINR", "CHIN"].findSome?
          (fun e =>
            match find_str_in_list e raw_norm with
            | some j => if j ≠ i then some j else none
            | none => none) with
      | some j => dinsert m3 "EMGref" (rawChns.getD j "")
      | none => m3
    else m3

-- ---------------------------------------------------------------------
-- utils.py: get_expected_chn_names
-- ---------------------------------------------------------------------

/-- The fixed role order of `get_expected_chn_names`. -/
def expectedRoles : List String :=
  ["F3", "F4", "C3", "C4", "O1", "O2", "E1", "E2", "EMG", "M1", "M2",
   "EMGref"]

/-- Alias-table lookup: the per-dataset table maps a role to its list
of dataset-specific names (a single string in the source becomes a
singleton list here); the role name itself is appended as default. -/
def tableNames (table : List (String × List String)) (c : String) :
    List String :=
  ((table.find? (fun p => p.1 == c)).map (fun p => p.2)).getD [] ++ [c]

/-- The matching loop of `get_expected_chn_names`: for each role in
order, the first candidate name with a case-insensitive exact match
against the raw channel list resolves the role to the first such raw
name. -/
def matchRoles (table : List (String × List String))
    (rawChns : List String) : Dict :=
  expectedRoles.foldl
    (fun m c =>
      match (tableNames table c).findSome?
          (fun name => rawChns.find? (fun rcn => pyUpper name == pyUpper rcn)) with
      | some rcn => dinsert m c rcn
      | none => m)
    []

/-- The EEG/EOG roles against which a resolved reference is checked. -/
def eegEogRoles : List String :=
  ["F3", "F4", "C3", "C4", "O1", "O2", "E1", "E2"]

/-- Reference removal for one reference role (`get_expected_chn_names`,
"Remove incorrect references"): a resolved reference is deleted when
its raw name is a substring of the raw name of some resolved EEG/EOG
role. -/
def removeRef (m : Dict) (ref : String) : Dict :=
  match dlookup m ref with
  | none => m
  | some v =>
    if eegEogRoles.any
        (fun c =>
          match dlookup m c with
          | some w => containsSubstr v w
          | none => false) then
      derase m ref
    else m

/-- Reference removal applied to M1 then M2. -/
def removeRefs (m : Dict) : Dict :=
  removeRef (removeRef m "M1") "M2"

/-- One fallback substitution (`get_expected_chn_names`, "Fallback
replacement rules"): when the target role is absent and the source role
present, the source entry is popped and its raw name re-inserted under
the target role. -/
def fallbackSub (m : Dict) (src tgt : String) : Dict :=
  if dcontains m tgt then m
  else
    match dlookup m src with
    | some v => dinsert (derase m src) tgt v
    | none => m

/-- The fallback chain F3→F4, C3→C4, O1→O2, EMGref→EMG in order. -/
def applyFallbacks (m : Dict) : Dict :=
  fallbackSub (fallbackSub (fallbackSub (fallbackSub m "F3" "F4")
    "C3" "C4") "O1" "O2") "EMGref" "EMG"

/-- Table-driven channel resolution (utils.py
`get_expected_chn_names`): matching, reference removal, fallback
substitution. -/
def get_expected_chn_names (table : List (String × List String))
    (rawChns : List String) : Dict :=
  applyFallbacks (removeRefs (matchRoles table rawChns))

-- ---------------------------------------------------------------------
-- Generic helpers for the theorems
-- ---------------------------------------------------------------------

/-- Left-biased choice on options (the value a Python dict read returns
after a conditional write). -/
def optOr {α : Type} (a b : Option α) : Option α :=
  match a with
  | some x => some x
  | none => b

theorem optOr_none {α : Type} (a : Option α) : optOr a none = a := by
  cases a <;> rfl

theorem dlookup_cons (p : String × String) (t : Dict) (k : String) :
    dlookup (p :: t) k = if p.1 == k then some p.2 else dlookup t k := by
  unfold dlookup
  rw [List.find?]
  cases h : p.1 == k <;> simp [h]

theorem dlookup_append (m1 m2 : Dict) (k : String) :
    dlookup (m1 ++ m2) k = optOr (dlookup m1 k) (dlookup m2 k) := by
  induction m1 with
  | nil => simp [dlookup, optOr]
  | cons p t ih =>
    rw [List.cons_append, dlookup_cons, dlookup_cons]
    cases h : p.1 == k <;> simp [h, ih, optOr]

theorem dcontains_eq_isSome (m : Dict) (k : String) :
    dcontains m k = (dlookup m k).isSome := by
  induction m with
  | nil => rfl
  | cons p t ih =>
    rw [dlookup_cons]
    cases h : p.1 == k <;> simp [dcontains, h, ih, dcontains] at * <;>
      simp [ih]

theorem dlookup_dsetdefault_self (m : Dict) (k v : String) :
    dlookup (dsetdefault m k v) k = optOr (dlookup m k) (some v) := by
  unfold dsetdefault
  cases hc : dcontains m k with
  | false =>
    rw [dcontains_eq_isSome] at hc
    have hnone : dlookup m k = none := by
      cases h : dlookup m k
      · rfl
      · rw [h] at hc; simp at hc
    have hfind : List.find? (fun p => p.1 == k) m = none := by
      unfold dlookup at hnone
      cases h : List.find? (fun p => p.1 == k) m
      · rfl
      · rw [h] at hnone; simp at hnone
    simp [hc, dlookup, List.find?_append, hfind, optOr, hnone]
  | true =>
    rw [dcontains_eq_isSome] at hc
    cases h : dlookup m k with
    | none => simp [h] at hc
    | some w => simp [dcontains_eq_isSome, h, optOr]

-- ---------------------------------------------------------------------
-- Claims
-- ---------------------------------------------------------------------

/-- C10: an absent (`None`) epochs input passes through
`standardize_epochs` unchanged and makes `package_sequences` return the
absent pair (modelled as `none`), for every scaler, label list and
sequence length, so the failure signal of `slice_epochs` propagates
through the remaining pipeline stages. -/
theorem C10_none_propagation :
    ∀ (scale : List (List Int) → List (List Int)) (labels : List Int)
      (seq_len : Nat),
      standardize_epochs scale none = none ∧
      @package_sequences (List (List Int)) Int none labels seq_len = none :=
  fun _ _ _ => ⟨rfl, rfl⟩

/-- C3 (amended): every line-based reader returns `ok []` on an empty
file, the header-skipping readers also return `ok []` on a header-only
file (mass_txt for its fixed header, tsv/hmc_txt/wsc_txt for any first
line), but structurally unparseable input can raise: a dcsm_ids record
whose duration field is not an integer raises a conversion error past
the module boundary instead of yielding an empty result. -/
theorem C3_empty_input_ok_unparseable_raises :
    (∀ rt, rt ∈ ["mass_txt", "saf", "eannot", "stages_csv", "dcsm_ids",
        "tsv", "hmc_txt", "wsc_txt"] → load_anno rt [] = .ok []) ∧
    load_anno "mass_txt" ["Onset,Duration,Annotation"] = .ok [] ∧
    (∀ h1, load_anno "tsv" [h1] = .ok []) ∧
    (∀ h1, load_anno "hmc_txt" [h1] = .ok []) ∧
    (∀ h1, load_anno "wsc_txt" [h1] = .ok []) ∧
    load_anno "dcsm_ids" ["a,b,c"] = .error "invalid literal for int" := by
  refine ⟨?_, ?_, ?_, ?_, ?_, ?_⟩
  · intro rt hrt
    fin_cases hrt <;> rfl
  · rfl
  · intro h1; rfl
  · intro h1; rfl
  · intro h1; rfl
  · rfl

/-- C3 witness: the reader-dispatch conjunct applied at a concrete
format identifier. -/
theorem C3_witness : load_anno "saf" [] = .ok [] :=
  C3_empty_input_ok_unparseable_raises.1 "saf" (by decide)

/-- C3 counterexample: on the structurally unparseable dcsm_ids input
`a,b,c` the unified entry point raises (an `int()` conversion error)
instead of returning an empty sequence, refuting the claim that
unparseable input yields an empty result and never raises. -/
theorem C3_counterexample :
    load_anno "dcsm_ids" ["a,b,c"] = .error "invalid literal for int" := by
  rfl

/-- C1 counterexample: a mass_txt record kept for containing `stage`
whose final whitespace-separated token `X` is not a key of `dic`
contributes Unknown (5) to the result, and so does a saf record with
unmapped stage character `X`: unmapped tokens are defaulted, not
dropped, refuting the claim that they contribute no element. -/
theorem C1_counterexample :
    mass_txt ["Onset,Duration,Annotation", "0,30,stage X"] = .ok [5] ∧
    saf ["Sleep stage X"] = [5] :=
  ⟨rfl, rfl⟩

/-- C2 counterexample: a stages_csv record with a mapped stage and
duration 0 contributes one copy of the stage code (the source's
`else 1` branch), refuting the claim that zero duration yields zero
repeats in every duration-expanding decoder. -/
theorem C2_counterexample : stages_csv ["x,0, Wake"] = .ok [0] := by
  rfl

/-- C1 (amended): in the event-log readers a kept record whose final
whitespace-separated stage token is not a key of `dic` contributes
Unknown (5) to the sequence — unmapped tokens are defaulted, not
dropped.  For mass_txt: any kept single-record file with an unmapped
final token yields exactly `[5]`; for saf: the reader emits one label
per scanned marker (nothing is dropped) and the token map defaults to
5 on every unmapped token. -/
theorem C1_unmapped_stage_token_maps_to_unknown :
    (∀ (l : String) (v : Int × Nat),
      pyStrip l ≠ "" →
      3 ≤ (pySplit (pyStrip l) ",").length →
      containsSubstr "stage" ((pySplit (pyStrip l) ",").getD 2 "") = true →
      assocGet dic
        ((pySplit ((pySplit (pyStrip l) ",").getD 2 "") " ").getLastD "")
        = none →
      parsePyFloat ((pySplit (pyStrip l) ",").getD 0 "") = some v →
      mass_txt ["Onset,Duration,Annotation", l] = .ok [5]) ∧
    (∀ s : String,
      (saf [s]).length = (safScan s.toList.length s.toList).length) ∧
    (∀ tok : String, assocGet dic tok = none → dicGetD tok = 5) := by
  refine ⟨?_, ?_, ?_⟩
  · intro l v h1 h2 h3 h4 h5
    have hlen : ¬ (pySplit (pyStrip l) ",").length < 3 := by omega
    have hstep : massTxtStep ([], ((-1 : Int), 1)) l = .ok ([5], v) := by
      simp only [massTxtStep, if_neg h1, if_neg hlen, h3, h5, Bool.not_true,
        dicGetD, h4, Option.getD_none]
      norm_num
    show (List.foldlM massTxtStep ([], ((-1 : Int), 1)) [l]).map
      (fun p => p.1) = .ok [5]
    simp [List.foldlM, hstep, Except.map]
  · intro s
    simp [saf]
  · intro tok h
    simp [dicGetD, h]

/-- C1 witness: the mass_txt conjunct applied at the concrete kept
record `10,30,stage Q`, whose final token `Q` is not a key of `dic`. -/
theorem C1_witness :
    mass_txt ["Onset,Duration,Annotation", "10,30,stage Q"] = .ok [5] :=
  C1_unmapped_stage_token_maps_to_unknown.1 "10,30,stage Q" (10, 1)
    (by decide) (by decide) rfl rfl rfl

/-- C2 (amended): in the duration-expanding decoders a record with a
mapped stage token and duration d contributes floor(d/30) copies of the
stage code with two qualifications: stages_csv uses floor(d/30) only
when d > 0 (so 0 < d < 30 contributes nothing) and contributes exactly
one copy when d ≤ 0, while dcsm_ids always uses floor(d/30) with a
negative result clamped to zero copies; duration 90 yields three copies
in both readers and duration 0 yields one copy in stages_csv but zero
in dcsm_ids. -/
theorem C2_duration_expansion :
    (∀ (l : String) (code : Int) (d : Int × Nat),
      assocGet stagesCsvDict ((pySplit (pyStrip l) ",").getD 2 "")
        = some code →
      parsePyFloat ((pySplit (pyStrip l) ",").getD 1 "") = some d →
      3 ≤ (pySplit (pyStrip l) ",").length →
      (0 < d.1 → stagesCsvRecord l
        = .ok (List.replicate (Int.fdiv d.1 (30 * d.2)).toNat code)) ∧
      (d.1 ≤ 0 → stagesCsvRecord l = .ok [code])) ∧
    (∀ (l : String) (code : Int) (d : Int),
      pyStrip l ≠ "" →
      3 ≤ (pySplit (pyStrip l) ",").length →
      parsePyInt ((pySplit (pyStrip l) ",").getD 1 "") = some d →
      assocGet dcsmDict ((pySplit (pyStrip l) ",").getD 2 "") = some code →
      dcsm_ids [l] = .ok (List.replicate (Int.fdiv d 30).toNat code)) ∧
    stages_csv ["x,90, Wake"] = .ok [0, 0, 0] ∧
    stages_csv ["x,15, Wake"] = .ok [] ∧
    dcsm_ids ["a,90,W"] = .ok [0, 0, 0] ∧
    dcsm_ids ["a,0,W"] = .ok [] := by
  refine ⟨?_, ?_, rfl, rfl, rfl, rfl⟩
  · intro l code d hcode hd hlen
    have hlen3 : ¬ (pySplit (pyStrip l) ",").length < 3 := by omega
    constructor
    · intro hpos
      simp only [stagesCsvRecord, if_neg hlen3, hcode, hd, if_pos hpos]
    · intro hneg
      have : ¬ (0 < d.1) := by omega
      simp only [stagesCsvRecord, if_neg hlen3, hcode, hd, if_neg this]
      rfl
  · intro l code d h1 hlen hd hcode
    have hlen3 : ¬ (pySplit (pyStrip l) ",").length < 3 := by omega
    have hstep : dcsmRecord l
        = .ok (List.replicate (Int.fdiv d 30).toNat code) := by
      simp only [dcsmRecord, if_neg h1, if_neg hlen3, hd, hcode]
    show (List.foldlM
        (fun acc l => (dcsmRecord l).map (fun r => acc ++ r)) [] [l])
      = .ok (List.replicate (Int.fdiv d 30).toNat code)
    simp [List.foldlM, hstep, Except.map]

theorem inferRef_foldl_lookup (rawChns raw_norm : List String)
    (sfxs : List String) :
    ∀ (m : Dict),
      dlookup (sfxs.foldl (fun acc sfx =>
          match find_str_in_list sfx raw_norm with
          | some i => dsetdefault acc "M2" (rawChns.getD i "")
          | none => acc) m) "M2"
      = optOr (dlookup m "M2")
          (sfxs.findSome? (fun sfx => (find_str_in_list sfx raw_norm).map
            (fun i => rawChns.getD i ""))) := by
  induction sfxs with
  | nil => intro m; simp [optOr_none]
  | cons s t ih =>
    intro m
    rw [List.foldl_cons, List.findSome?_cons]
    cases h : find_str_in_list s raw_norm with
    | none => simpa using ih m
    | some i =>
      have h2 := ih (dsetdefault m "M2" (rawChns.getD i ""))
      rw [dlookup_dsetdefault_self] at h2
      cases hm : dlookup m "M2" with
      | none => rw [hm] at h2; simpa [optOr] using h2
      | some x => rw [hm] at h2; simpa [optOr] using h2

/-- C9 (amended): in heuristic inference, the generic-reference scan
for a bare EEG position match records under the default reference role
M2 the raw name of the FIRST token among A1, A2, M1, M2 (in that scan
order) that matches a raw channel — `setdefault` keeps the earliest
write, so first-match-wins, and a reference already recorded is never
overwritten. -/
theorem C9_default_reference_first_match :
    ∀ (rawChns raw_norm : List String) (m : Dict),
      dlookup (inferRef rawChns raw_norm m) "M2"
      = optOr (dlookup m "M2")
          (["A1", "A2", "M1", "M2"].findSome?
            (fun sfx => (find_str_in_list sfx raw_norm).map
              (fun i => rawChns.getD i ""))) := by
  intro rawChns raw_norm m
  exact inferRef_foldl_lookup rawChns raw_norm ["A1", "A2", "M1", "M2"] m

/-- C9 counterexample: with raw channels `C3`, `A1`, `M1` the bare C3
match triggers the reference scan in which A1 and M1 both match; the
recorded default reference is A1, the first match in scan order, not M1,
the last — refuting last-match-wins. -/
theorem C9_counterexample :
    dlookup (get_auto_chn_names ["C3", "A1", "M1"]) "M2" = some "A1" ∧
    ¬ dlookup (get_auto_chn_names ["C3", "A1", "M1"]) "M2" = some "M1" := by
  exact ⟨rfl, by decide⟩

theorem dlookup_dinsert_self (m : Dict) (k v : String) :
    dlookup (dinsert m k v) k = some v := by
  induction m with
  | nil => simp [dinsert, dlookup_cons]
  | cons p t ih =>
    unfold dinsert
    cases h : p.1 == k <;> simp [h, dlookup_cons, ih]

theorem dlookup_dinsert_ne (m : Dict) (k v k' : String) (hne : k' ≠ k) :
    dlookup (dinsert m k v) k' = dlookup m k' := by
  induction m with
  | nil =>
    simp [dinsert, dlookup_cons, dlookup]
    intro h
    exact absurd h.symm hne
  | cons p t ih =>
    unfold dinsert
    cases h : p.1 == k with
    | true =>
      rw [if_pos rfl]
      rw [dlookup_cons, dlookup_cons]
      have hp : p.1 = k := by simpa using h
      have h1 : ¬ (k == k') = true := by
        simp
        intro hh
        exact hne hh.symm
      have h2 : ¬ (p.1 == k') = true := by
        simp [hp]
        intro hh
        exact hne hh.symm
      simp only [h1, h2]
      simp
    | false =>
      rw [if_neg (by simp [h])]
      rw [dlookup_cons, dlookup_cons]
      cases h2 : p.1 == k' <;> simp [h2, ih]

theorem dlookup_derase_self (m : Dict) (k : String) :
    dlookup (derase m k) k = none := by
  induction m with
  | nil => rfl
  | cons p t ih =>
    show dlookup (List.filter (fun p => !(p.1 == k)) (p :: t)) k = none
    rw [List.filter_cons]
    cases h : p.1 == k with
    | true =>
      simp only [h, Bool.not_true, Bool.false_eq_true, if_false]
      exact ih
    | false =>
      simp only [h, Bool.not_false, if_true]
      rw [dlookup_cons]
      simp only [h, Bool.false_eq_true, if_false]
      exact ih

theorem dlookup_derase_ne (m : Dict) (k k' : String) (hne : k' ≠ k) :
    dlookup (derase m k) k' = dlookup m k' := by
  induction m with
  | nil => rfl
  | cons p t ih =>
    show dlookup (List.filter (fun p => !(p.1 == k)) (p :: t)) k'
      = dlookup (p :: t) k'
    rw [List.filter_cons]
    cases h : p.1 == k with
    | true =>
      have hp : p.1 = k := by simpa using h
      have h2 : (p.1 == k') = false := by
        simp [hp]
        intro hh
        exact hne hh.symm
      simp only [h, Bool.not_true, Bool.false_eq_true, if_false]
      rw [dlookup_cons]
      simp only [h2, Bool.false_eq_true, if_false]
      exact ih
    | false =>
      simp only [h, Bool.not_false, if_true]
      rw [dlookup_cons, dlookup_cons]
      cases h2 : p.1 == k' with
      | true => simp only [h2, if_true]
      | false =>
        simp only [h2, Bool.false_eq_true, if_false]
        exact ih

theorem fallbackSub_tgt (m : Dict) (src tgt : String) :
    dlookup (fallbackSub m src tgt) tgt
    = optOr (dlookup m tgt) (dlookup m src) := by
  unfold fallbackSub
  cases hc : dcontains m tgt with
  | true =>
    rw [dcontains_eq_isSome] at hc
    cases h : dlookup m tgt with
    | none => rw [h] at hc; simp at hc
    | some w => simp [h, optOr]
  | false =>
    rw [dcontains_eq_isSome] at hc
    have hnone : dlookup m tgt = none := by
      cases h : dlookup m tgt
      · rfl
      · rw [h] at hc; simp at hc
    cases hs : dlookup m src with
    | none => simp [hnone, hs, optOr]
    | some v => simp [hnone, hs, optOr, dlookup_dinsert_self]

theorem fallbackSub_src (m : Dict) (src tgt : String) (hne : src ≠ tgt) :
    dlookup (fallbackSub m src tgt) src
    = if dcontains m tgt then dlookup m src else none := by
  unfold fallbackSub
  cases hc : dcontains m tgt with
  | true => simp
  | false =>
    cases hs : dlookup m src with
    | none => simp [hs]
    | some v =>
      simp only [Bool.false_eq_true, if_false, hs]
      rw [dlookup_dinsert_ne _ _ _ _ hne, dlookup_derase_self]

theorem fallbackSub_frame (m : Dict) (src tgt k : String)
    (h1 : k ≠ src) (h2 : k ≠ tgt) :
    dlookup (fallbackSub m src tgt) k = dlookup m k := by
  unfold fallbackSub
  cases hc : dcontains m tgt with
  | true => simp
  | false =>
    cases hs : dlookup m src with
    | none => simp
    | some v =>
      simp only [Bool.false_eq_true, if_false]
      rw [dlookup_dinsert_ne _ _ _ _ h2, dlookup_derase_ne _ _ _ h1]

theorem dcontains_fallbackSub_frame (m : Dict) (src tgt k : String)
    (h1 : k ≠ src) (h2 : k ≠ tgt) :
    dcontains (fallbackSub m src tgt) k = dcontains m k := by
  rw [dcontains_eq_isSome, dcontains_eq_isSome,
    fallbackSub_frame m src tgt k h1 h2]

/-- C6: the fallback substitution chain of table-driven resolution.
With m the map after matching and reference removal and r the final
result, each of the four substitutions F3→F4, C3→C4, O1→O2, EMGref→EMG
behaves exactly as a conditional move: the target role ends up with its
own raw name if it was resolved and otherwise with the source role's
raw name (if any), and the source role survives exactly when the target
was already resolved — so a substitution fires only when the target is
unresolved and the source resolved, and it moves the raw name, leaving
the source role absent. -/
theorem C6_fallback_substitution_chain :
    ∀ (table : List (String × List String)) (rawChns : List String),
      (dlookup (get_expected_chn_names table rawChns) "F4"
        = optOr (dlookup (removeRefs (matchRoles table rawChns)) "F4")
            (dlookup (removeRefs (matchRoles table rawChns)) "F3") ∧
       dlookup (get_expected_chn_names table rawChns) "F3"
        = (if dcontains (removeRefs (matchRoles table rawChns)) "F4"
           then dlookup (removeRefs (matchRoles table rawChns)) "F3"
           else none)) ∧
      (dlookup (get_expected_chn_names table rawChns) "C4"
        = optOr (dlookup (removeRefs (matchRoles table rawChns)) "C4")
            (dlookup (removeRefs (matchRoles table rawChns)) "C3") ∧
       dlookup (get_expected_chn_names table rawChns) "C3"
        = (if dcontains (removeRefs (matchRoles table rawChns)) "C4"
           then dlookup (removeRefs (matchRoles table rawChns)) "C3"
           else none)) ∧
      (dlookup (get_expected_chn_names table rawChns) "O2"
        = optOr (dlookup (removeRefs (matchRoles table rawChns)) "O2")
            (dlookup (removeRefs (matchRoles table rawChns)) "O1") ∧
       dlookup (get_expected_chn_names table rawChns) "O1"
        = (if dcontains (removeRefs (matchRoles table rawChns)) "O2"
           then dlookup (removeRefs (matchRoles table rawChns)) "O1"
           else none)) ∧
      (dlookup (get_expected_chn_names table rawChns) "EMG"
        = optOr (dlookup (removeRefs (matchRoles table rawChns)) "EMG")
            (dlookup (removeRefs (matchRoles table rawChns)) "EMGref") ∧
       dlookup (get_expected_chn_names table rawChns) "EMGref"
        = (if dcontains (removeRefs (matchRoles table rawChns)) "EMG"
           then dlookup (removeRefs (matchRoles table rawChns)) "EMGref"
           else none)) := by
  intro table rawChns
  have hexp : get_expected_chn_names table rawChns
      = fallbackSub (fallbackSub (fallbackSub (fallbackSub
          (removeRefs (matchRoles table rawChns)) "F3" "F4")
          "C3" "C4") "O1" "O2") "EMGref" "EMG" := rfl
  refine ⟨⟨?_, ?_⟩, ⟨?_, ?_⟩, ⟨?_, ?_⟩, ⟨?_, ?_⟩⟩
  · rw [hexp,
      fallbackSub_frame _ "EMGref" "EMG" "F4" (by decide) (by decide),
      fallbackSub_frame _ "O1" "O2" "F4" (by decide) (by decide),
      fallbackSub_frame _ "C3" "C4" "F4" (by decide) (by decide),
      fallbackSub_tgt]
  · rw [hexp,
      fallbackSub_frame _ "EMGref" "EMG" "F3" (by decide) (by decide),
      fallbackSub_frame _ "O1" "O2" "F3" (by decide) (by decide),
      fallbackSub_frame _ "C3" "C4" "F3" (by decide) (by decide),
      fallbackSub_src _ _ _ (by decide)]
  · rw [hexp,
      fallbackSub_frame _ "EMGref" "EMG" "C4" (by decide) (by decide),
      fallbackSub_frame _ "O1" "O2" "C4" (by decide) (by decide),
      fallbackSub_tgt,
      fallbackSub_frame _ "F3" "F4" "C4" (by decide) (by decide),
      fallbackSub_frame _ "F3" "F4" "C3" (by decide) (by decide)]
  · rw [hexp,
      fallbackSub_frame _ "EMGref" "EMG" "C3" (by decide) (by decide),
      fallbackSub_frame _ "O1" "O2" "C3" (by decide) (by decide),
      fallbackSub_src _ _ _ (by decide),
      dcontains_fallbackSub_frame _ "F3" "F4" "C4" (by decide) (by decide),
      fallbackSub_frame _ "F3" "F4" "C3" (by decide) (by decide)]
  · rw [hexp,
      fallbackSub_frame _ "EMGref" "EMG" "O2" (by decide) (by decide),
      fallbackSub_tgt,
      fallbackSub_frame _ "C3" "C4" "O2" (by decide) (by decide),
      fallbackSub_frame _ "F3" "F4" "O2" (by decide) (by decide),
      fallbackSub_frame _ "C3" "C4" "O1" (by decide) (by decide),
      fallbackSub_frame _ "F3" "F4" "O1" (by decide) (by decide)]
  · rw [hexp,
      fallbackSub_frame _ "EMGref" "EMG" "O1" (by decide) (by decide),
      fallbackSub_src _ _ _ (by decide),
      dcontains_fallbackSub_frame _ "C3" "C4" "O2" (by decide) (by decide),
      dcontains_fallbackSub_frame _ "F3" "F4" "O2" (by decide) (by decide),
      fallbackSub_frame _ "C3" "C4" "O1" (by decide) (by decide),
      fallbackSub_frame _ "F3" "F4" "O1" (by decide) (by decide)]
  · rw [hexp,
      fallbackSub_tgt,
      fallbackSub_frame _ "O1" "O2" "EMG" (by decide) (by decide),
      fallbackSub_frame _ "C3" "C4" "EMG" (by decide) (by decide),
      fallbackSub_frame _ "F3" "F4" "EMG" (by decide) (by decide),
      fallbackSub_frame _ "O1" "O2" "EMGref" (by decide) (by decide),
      fallbackSub_frame _ "C3" "C4" "EMGref" (by decide) (by decide),
      fallbackSub_frame _ "F3" "F4" "EMGref" (by decide) (by decide)]
  · rw [hexp,
      fallbackSub_src _ _ _ (by decide),
      dcontains_fallbackSub_frame _ "O1" "O2" "EMG" (by decide) (by decide),
      dcontains_fallbackSub_frame _ "C3" "C4" "EMG" (by decide) (by decide),
      dcontains_fallbackSub_frame _ "F3" "F4" "EMG" (by decide) (by decide),
      fallbackSub_frame _ "O1" "O2" "EMGref" (by decide) (by decide),
      fallbackSub_frame _ "C3" "C4" "EMGref" (by decide) (by decide),
      fallbackSub_frame _ "F3" "F4" "EMGref" (by decide) (by decide)]

theorem removeRef_frame (m : Dict) (ref k : String) (h : k ≠ ref) :
    dlookup (removeRef m ref) k = dlookup m k := by
  unfold removeRef
  split
  · rfl
  · split
    · exact dlookup_derase_ne m ref k h
    · rfl

theorem removeRef_removes (m : Dict) (ref v : String)
    (hv : dlookup m ref = some v)
    (hcond : (eegEogRoles.any fun c =>
      match dlookup m c with
      | some w => containsSubstr v w
      | none => false) = true) :
    removeRef m ref = derase m ref := by
  unfold removeRef
  split
  · rename_i heq
    rw [hv] at heq
    simp at heq
  · rename_i v2 heq
    rw [hv] at heq
    injection heq with hvv
    subst hvv
    rw [if_pos hcond]

theorem any_congr_aux {α : Type} (l : List α) (f g : α → Bool)
    (h : ∀ x ∈ l, f x = g x) : l.any f = l.any g := by
  induction l with
  | nil => rfl
  | cons a t ih =>
    rw [List.any_cons, List.any_cons, h a (by simp),
      ih (fun x hx => h x (by simp [hx]))]

/-- C7: a reference role (M1 or M2) resolved by the matching stage is
removed from the final result of table-driven resolution whenever its
resolved raw name is a substring of the raw name resolved to some
EEG/EOG role (F3, F4, C3, C4, O1, O2, E1, E2). -/
theorem C7_reference_substring_removal :
    ∀ (table : List (String × List String)) (rawChns : List String)
      (ref v : String),
      (ref = "M1" ∨ ref = "M2") →
      dlookup (matchRoles table rawChns) ref = some v →
      (eegEogRoles.any fun c =>
        match dlookup (matchRoles table rawChns) c with
        | some w => containsSubstr v w
        | none => false) = true →
      dlookup (get_expected_chn_names table rawChns) ref = none := by
  intro table rawChns ref v href hv hcond
  have hexp : get_expected_chn_names table rawChns
      = fallbackSub (fallbackSub (fallbackSub (fallbackSub
          (removeRef (removeRef (matchRoles table rawChns) "M1") "M2")
          "F3" "F4") "C3" "C4") "O1" "O2") "EMGref" "EMG" := rfl
  have hrr : dlookup (removeRef (removeRef (matchRoles table rawChns) "M1")
      "M2") ref = none := by
    rcases href with h | h <;> subst h
    · rw [removeRef_frame _ _ _ (by decide)]
      rw [removeRef_removes (matchRoles table rawChns) "M1" v hv hcond]
      exact dlookup_derase_self _ _
    · have hfr : ∀ c, c ≠ "M1" →
          dlookup (removeRef (matchRoles table rawChns) "M1") c
          = dlookup (matchRoles table rawChns) c :=
        fun c hc => removeRef_frame _ _ _ hc
      have hv2 : dlookup (removeRef (matchRoles table rawChns) "M1") "M2"
          = some v := by rw [hfr "M2" (by decide)]; exact hv
      have hmem : ∀ c ∈ eegEogRoles, c ≠ "M1" := by decide
      have hcond2 : (eegEogRoles.any fun c =>
          match dlookup (removeRef (matchRoles table rawChns) "M1") c with
          | some w => containsSubstr v w
          | none => false) = true := by
        rw [any_congr_aux eegEogRoles _ _
          (fun c hc => by rw [hfr c (hmem c hc)])]
        exact hcond
      rw [removeRef_removes _ "M2" v hv2 hcond2]
      exact dlookup_derase_self _ _
  rw [hexp,
    fallbackSub_frame _ "EMGref" "EMG" ref
      (by rcases href with h | h <;> subst h <;> decide)
      (by rcases href with h | h <;> subst h <;> decide),
    fallbackSub_frame _ "O1" "O2" ref
      (by rcases href with h | h <;> subst h <;> decide)
      (by rcases href with h | h <;> subst h <;> decide),
    fallbackSub_frame _ "C3" "C4" ref
      (by rcases href with h | h <;> subst h <;> decide)
      (by rcases href with h | h <;> subst h <;> decide),
    fallbackSub_frame _ "F3" "F4" ref
      (by rcases href with h | h <;> subst h <;> decide)
      (by rcases href with h | h <;> subst h <;> decide)]
  exact hrr

/-- C7 witness: with the alias F4 ↦ F4-M2 and raw channels F4-M2 and
M2, role M2 resolves to raw name M2, which is a substring of F4's
resolved raw name F4-M2, so M2 is absent from the final map. -/
theorem C7_witness :
    dlookup (get_expected_chn_names [("F4", ["F4-M2"])] ["F4-M2", "M2"])
      "M2" = none :=
  C7_reference_substring_removal [("F4", ["F4-M2"])] ["F4-M2", "M2"]
    "M2" "M2" (Or.inr rfl) (by decide) (by decide)

/-- C4: for a rectangular signal, `slice_epochs` returns exactly
min(floor(total-samples / samples-per-epoch), label-count) epochs: the
absent pair when that count is zero, and otherwise an epoch tensor of
that many epochs — each of shape channels × samples-per-epoch, so the
signal is truncated to whole epochs — together with the labels
truncated to the same count. -/
theorem C4_slice_epochs_epoch_count :
    ∀ (signal : List (List Int)) (labels : List Int) (fs epoch_sec : Nat),
      (∀ row ∈ signal, row.length = (signal.headD []).length) →
      0 < fs * epoch_sec →
      (min ((signal.headD []).length / (fs * epoch_sec)) labels.length = 0 →
        slice_epochs signal labels fs epoch_sec = none) ∧
      (∀ e l, slice_epochs signal labels fs epoch_sec = some (e, l) →
        e.length
          = min ((signal.headD []).length / (fs * epoch_sec)) labels.length ∧
        l = labels.take
          (min ((signal.headD []).length / (fs * epoch_sec)) labels.length) ∧
        (∀ ep ∈ e, ep.length = signal.length ∧
          ∀ row ∈ ep, row.length = fs * epoch_sec)) ∧
      (0 < min ((signal.headD []).length / (fs * epoch_sec)) labels.length →
        (slice_epochs signal labels fs epoch_sec).isSome = true) := by
  intro signal labels fs epoch_sec hrect hspe
  have hnn : (if labels.length
        < (signal.headD []).length / (fs * epoch_sec) then labels.length
      else (signal.headD []).length / (fs * epoch_sec))
      = min ((signal.headD []).length / (fs * epoch_sec)) labels.length := by
    split <;> omega
  have hd1 : (signal.headD []).length / (fs * epoch_sec) * (fs * epoch_sec)
      ≤ (signal.headD []).length := Nat.div_mul_le_self _ _
  have hd2 : min ((signal.headD []).length / (fs * epoch_sec))
        labels.length * (fs * epoch_sec)
      ≤ (signal.headD []).length / (fs * epoch_sec) * (fs * epoch_sec) :=
    Nat.mul_le_mul_right _ (min_le_left _ _)
  refine ⟨?_, ?_, ?_⟩
  · intro h0
    simp only [slice_epochs]
    rw [hnn, if_pos h0]
  · intro e l heq
    by_cases hmin0 : min ((signal.headD []).length / (fs * epoch_sec))
        labels.length = 0
    · simp only [slice_epochs] at heq
      rw [hnn, if_pos hmin0] at heq
      cases heq
    · simp only [slice_epochs] at heq
      rw [hnn, if_neg hmin0] at heq
      obtain ⟨he, hl⟩ := Prod.mk.injEq .. ▸ Option.some.injEq .. ▸ heq
      refine ⟨?_, ?_, ?_⟩
      · rw [← he]; simp
      · rw [← hl]
        by_cases hgt : labels.length
            > (signal.headD []).length / (fs * epoch_sec)
        · rw [if_pos hgt]
          congr 1
          omega
        · rw [if_neg hgt]
          have hmn : min ((signal.headD []).length / (fs * epoch_sec))
              labels.length = labels.length := by omega
          rw [hmn, List.take_length]
      · intro ep hep
        rw [← he] at hep
        obtain ⟨i, hi, hF⟩ := List.mem_map.mp hep
        rw [List.mem_range] at hi
        constructor
        · rw [← hF]
          by_cases hlt : labels.length
              < (signal.headD []).length / (fs * epoch_sec)
          · rw [if_pos hlt]; simp
          · rw [if_neg hlt]; simp
        · intro row hrow
          rw [← hF] at hrow
          obtain ⟨r1, hr1, hg⟩ := List.mem_map.mp hrow
          have hr1len : r1.length
              = min ((signal.headD []).length / (fs * epoch_sec))
                labels.length * (fs * epoch_sec) := by
            by_cases hlt : labels.length
                < (signal.headD []).length / (fs * epoch_sec)
            · rw [if_pos hlt] at hr1
              obtain ⟨r2, hr2, htake⟩ := List.mem_map.mp hr1
              obtain ⟨orig, horig, htake0⟩ := List.mem_map.mp hr2
              have hL := hrect orig horig
              rw [← htake, ← htake0, List.length_take, List.length_take, hL]
              omega
            · rw [if_neg hlt] at hr1
              obtain ⟨orig, horig, htake0⟩ := List.mem_map.mp hr1
              have hL := hrect orig horig
              have hmn : min ((signal.headD []).length / (fs * epoch_sec))
                  labels.length
                  = (signal.headD []).length / (fs * epoch_sec) := by omega
              rw [← htake0, List.length_take, hL, hmn]
              omega
          have h1 : (i + 1) * (fs * epoch_sec)
              ≤ min ((signal.headD []).length / (fs * epoch_sec))
                labels.length * (fs * epoch_sec) :=
            Nat.mul_le_mul_right _ hi
          rw [Nat.succ_mul] at h1
          rw [← hg, List.length_take, List.length_drop, hr1len]
          omega
  · intro hpos
    have h0 : ¬ min ((signal.headD []).length / (fs * epoch_sec))
        labels.length = 0 := by omega
    simp only [slice_epochs]
    rw [hnn, if_neg h0]
    rfl

/-- C4 witness: one channel of four samples at one sample per epoch
with three labels yields a present result (three epochs — the extra
epoch's worth of signal is dropped), and an empty label list yields the
absent result. -/
theorem C4_witness :
    (slice_epochs [[1, 2, 3, 4]] [7, 8, 9] 1 1).isSome = true ∧
    slice_epochs [[1, 2, 3]] [] 1 1 = none :=
  ⟨(C4_slice_epochs_epoch_count [[1, 2, 3, 4]] [7, 8, 9] 1 1 (by decide)
      (by decide)).2.2 (by decide),
   (C4_slice_epochs_epoch_count [[1, 2, 3]] [] 1 1 (by decide)
      (by decide)).1 (by decide)⟩

/-- C5: for a present epochs input, `package_sequences` returns exactly
floor(epoch-count / sequence-length) sequences: the absent pair when
that count is zero, and otherwise chunk i is exactly epochs
[i*seq_len, (i+1)*seq_len) — every chunk has full length seq_len,
trailing epochs that do not fill a chunk are discarded, and nothing is
padded.  Labels are chunked the same way from their first
count*seq_len entries. -/
theorem C5_package_sequences_count :
    ∀ {α β : Type} (es : List α) (labels : List β) (s : Nat),
      0 < s →
      (es.length / s = 0 → package_sequences (some es) labels s = none) ∧
      (∀ sd sl, package_sequences (some es) labels s = some (sd, sl) →
        sd.length = es.length / s ∧ sl.length = es.length / s ∧
        (∀ i, i < es.length / s →
          sd[i]? = some ((es.drop (i * s)).take s) ∧
          sl[i]? = some (((labels.take (es.length / s * s)).drop (i * s)).take s)) ∧
        (∀ chunk ∈ sd, chunk.length = s)) ∧
      (0 < es.length / s →
        (package_sequences (some es) labels s).isSome = true) := by
  intro α β es labels s hs
  have hns : es.length / s * s ≤ es.length := Nat.div_mul_le_self _ _
  refine ⟨?_, ?_, ?_⟩
  · intro h0
    simp [package_sequences, h0]
  · intro sd sl heq
    by_cases h0 : es.length / s = 0
    · simp [package_sequences, h0] at heq
    · simp only [package_sequences, if_neg h0] at heq
      obtain ⟨hsd, hsl⟩ := Prod.mk.injEq .. ▸ Option.some.injEq .. ▸ heq
      refine ⟨?_, ?_, ?_, ?_⟩
      · rw [← hsd]; simp
      · rw [← hsl]; simp
      · intro i hi
        have hstep : i * s + s ≤ es.length / s * s := by
          have h1 : (i + 1) * s ≤ es.length / s * s :=
            Nat.mul_le_mul_right _ hi
          rw [Nat.succ_mul] at h1
          exact h1
        constructor
        · rw [← hsd]
          rw [List.getElem?_map, List.getElem?_range hi]
          simp only [Option.map_some']
          congr 1
          rw [List.drop_take, List.take_take]
          congr 1
          omega
        · rw [← hsl]
          rw [List.getElem?_map, List.getElem?_range hi]
          simp only [Option.map_some']
      · intro chunk hchunk
        rw [← hsd] at hchunk
        obtain ⟨i, hi, hcf⟩ := List.mem_map.mp hchunk
        rw [List.mem_range] at hi
        have hstep : i * s + s ≤ es.length / s * s := by
          have h1 : (i + 1) * s ≤ es.length / s * s :=
            Nat.mul_le_mul_right _ hi
          rw [Nat.succ_mul] at h1
          exact h1
        rw [← hcf]
        rw [List.length_take, List.length_drop, List.length_take]
        omega
  · intro hpos
    have h0 : ¬ es.length / s = 0 := by omega
    simp [package_sequences, h0]

/-- C5 witness: 45 epochs with sequence length 20 give a present result
(two sequences), while 19 epochs with sequence length 20 give the
absent result. -/
theorem C5_witness :
    (package_sequences (some (List.range 45)) (List.range 45) 20).isSome
      = true ∧
    package_sequences (some (List.range 19)) (List.range 19) 20 = none :=
  ⟨(@C5_package_sequences_count Nat Nat (List.range 45) (List.range 45) 20
      (by decide)).2.2 (by decide),
   (@C5_package_sequences_count Nat Nat (List.range 19) (List.range 19) 20
      (by decide)).1 (by decide)⟩

theorem hmcLoop_cons (a : String) (rest : List String) :
    hmcLoop (a :: rest)
    = (if (pySplit (pyStrip a) ", ").length < 5 then hmcLoop rest
      else if containsSubstr "lights on"
          (pyLower ((pySplit (pyStrip a) ", ").getD 4 "")) then []
      else if containsSubstr "lights off"
          (pyLower ((pySplit (pyStrip a) ", ").getD 4 "")) then hmcLoop rest
      else
        match assocGet hmcDict
            (pyLower ((pySplit (pyStrip a) ", ").getD 4 "")) with
        | some v => v :: hmcLoop rest
        | none => hmcLoop rest) := rfl

theorem hmcLoop_stop (l : String)
    (h5 : ¬ (pySplit (pyStrip l) ", ").length < 5)
    (hon : containsSubstr "lights on"
      (pyLower ((pySplit (pyStrip l) ", ").getD 4 "")) = true) :
    ∀ (pre post : List String),
      hmcLoop (pre ++ l :: post) = hmcLoop (pre ++ [l]) := by
  intro pre
  induction pre with
  | nil =>
    intro post
    simp only [List.nil_append]
    rw [hmcLoop_cons, hmcLoop_cons, if_neg h5, if_neg h5, hon]
    simp
  | cons a pre ih =>
    intro post
    simp only [List.cons_append]
    rw [hmcLoop_cons, hmcLoop_cons]
    split_ifs
    · exact ih post
    · rfl
    · exact ih post
    · cases assocGet hmcDict (pyLower ((pySplit (pyStrip a) ", ").getD 4 ""))
      · exact ih post
      · exact congrArg _ (ih post)

theorem hmcLoop_skipline (l : String)
    (h5 : ¬ (pySplit (pyStrip l) ", ").length < 5)
    (hon : containsSubstr "lights on"
      (pyLower ((pySplit (pyStrip l) ", ").getD 4 "")) = false)
    (hoff : containsSubstr "lights off"
      (pyLower ((pySplit (pyStrip l) ", ").getD 4 "")) = true) :
    ∀ (pre post : List String),
      hmcLoop (pre ++ l :: post) = hmcLoop (pre ++ post) := by
  intro pre
  induction pre with
  | nil =>
    intro post
    simp only [List.nil_append]
    rw [hmcLoop_cons, if_neg h5, hon, hoff]
    simp
  | cons a pre ih =>
    intro post
    simp only [List.cons_append]
    rw [hmcLoop_cons, hmcLoop_cons]
    split_ifs
    · exact ih post
    · rfl
    · exact ih post
    · cases assocGet hmcDict (pyLower ((pySplit (pyStrip a) ", ").getD 4 ""))
      · exact ih post
      · exact congrArg _ (ih post)

/-- C8: in the session-boundary-aware reader hmc_txt, a record whose
annotation field contains `lights on` ends parsing entirely — the
result on any file equals the result with everything after that record
removed — while a record whose annotation contains `lights off` (and
not `lights on`) contributes nothing itself but parsing continues: the
result equals that of the same file with just that record removed. -/
theorem C8_session_boundary :
    (∀ (hd l : String) (pre post : List String),
      ¬ (pySplit (pyStrip l) ", ").length < 5 →
      containsSubstr "lights on"
        (pyLower ((pySplit (pyStrip l) ", ").getD 4 "")) = true →
      hmc_txt (hd :: (pre ++ l :: post)) = hmc_txt (hd :: (pre ++ [l]))) ∧
    (∀ (hd l : String) (pre post : List String),
      ¬ (pySplit (pyStrip l) ", ").length < 5 →
      containsSubstr "lights on"
        (pyLower ((pySplit (pyStrip l) ", ").getD 4 "")) = false →
      containsSubstr "lights off"
        (pyLower ((pySplit (pyStrip l) ", ").getD 4 "")) = true →
      hmc_txt (hd :: (pre ++ l :: post)) = hmc_txt (hd :: (pre ++ post))) := by
  constructor
  · intro hd l pre post h5 hon
    exact hmcLoop_stop l h5 hon pre post
  · intro hd l pre post h5 hon hoff
    exact hmcLoop_skipline l h5 hon hoff pre post

/-- C8 witness: a concrete file in which a `Lights On` record cuts off
a later stage record, and one in which a `Lights Off` record is skipped
while the record after it is still parsed. -/
theorem C8_witness :
    hmc_txt ["hdr", "a, b, c, d, Sleep stage W", "a, b, c, d, Lights On",
        "a, b, c, d, Sleep stage N1"]
      = hmc_txt ["hdr", "a, b, c, d, Sleep stage W",
        "a, b, c, d, Lights On"] ∧
    hmc_txt ["hdr", "a, b, c, d, Lights Off", "a, b, c, d, Sleep stage N1"]
      = hmc_txt ["hdr", "a, b, c, d, Sleep stage N1"] :=
  ⟨C8_session_boundary.1 "hdr" "a, b, c, d, Lights On"
      ["a, b, c, d, Sleep stage W"] ["a, b, c, d, Sleep stage N1"]
      (by decide) (by decide),
   C8_session_boundary.2 "hdr" "a, b, c, d, Lights Off" []
      ["a, b, c, d, Sleep stage N1"] (by decide) (by decide) (by decide)⟩

/-- C2 witness: the stages_csv conjunct applied at duration 45 (one
copy) and duration -3 (the else-branch single copy), and the dcsm_ids
conjunct at duration 60 (two copies). -/
theorem C2_witness :
    stagesCsvRecord "x,45, Stage2" = .ok [2] ∧
    stagesCsvRecord "x,-3, REM" = .ok [4] ∧
    dcsm_ids ["a,60,N2"] = .ok [2, 2] :=
  ⟨(C2_duration_expansion.1 "x,45, Stage2" 2 (45, 1) rfl rfl
      (by decide)).1 (by decide),
   (C2_duration_expansion.1 "x,-3, REM" 4 (-3, 1) rfl (by decide)
      (by decide)).2 (by decide),
   C2_duration_expansion.2.1 "a,60,N2" 2 60 (by decide) (by decide) rfl rfl⟩

end SleepKit
